import Mathlib

/-!
Shallow embedding of `common/xdc/nDCHistoryResender.go` (package `xdc` of
the cadence repository) together with the collaborators it consumes, and
proofs of the behavioural properties stated in the design document.

The file models the resend orchestrator `SendSingleWorkflowHistory`, the
pagination closure produced by `getPaginationFn`, the request constructor
`createReplicationRawRequest` and the repair gate `fixCurrentExecution`.
External collaborators (domain cache, admin client, replication function,
invariant checker) are modelled as data carried by the resender value; a
run of the orchestrator is a pure function from that data to the returned
error together with a trace of the observable events (remote fetches,
replication dispatches, invariant checks and fixes) in the order they
happen.
-/

set_option autoImplicit false

namespace Xdc

/-- Error values that flow through the resender.  `entityNotExists`
models `*shared.EntityNotExistsError` (with its message), `skipTask`
models the sentinel `ErrSkipTask`, and `other` models every other Go
error value, keyed by its message. -/
inductive GoError where
  | entityNotExists (message : String)
  | skipTask
  | other (message : String)
deriving DecidableEq, Repr

/-- ErrSkipTask, the sentinel returned to skip a task because the
workflow is absent from the source cluster (source lines 44-47). -/
def ErrSkipTask : GoError := GoError.skipTask

/-- One entry of a version history (`shared.VersionHistoryItem`),
treated as an opaque pass-through pair. -/
structure VersionHistoryItem where
  eventID : Int
  version : Int
deriving DecidableEq, Repr

/-- Version-history metadata of one remote response
(`shared.VersionHistory`); `items` models `GetItems()`. -/
structure VersionHistory where
  items : List VersionHistoryItem
deriving DecidableEq, Repr

/-- An opaque serialized event blob (`shared.DataBlob`); never decoded by
this core, so modelled as raw bytes. -/
structure DataBlob where
  data : List Nat
deriving DecidableEq, Repr

/-- A workflow execution identity (`shared.WorkflowExecution`). -/
structure WorkflowExecution where
  workflowId : String
  runId : String
deriving DecidableEq, Repr

/-- The replication request handed to the local apply function
(`history.ReplicateEventsV2Request`), fields as set by
`createReplicationRawRequest` (source lines 238-246). -/
structure ReplicateEventsV2Request where
  domainUUID : String
  workflowExecution : WorkflowExecution
  events : DataBlob
  versionHistoryItems : List VersionHistoryItem
deriving DecidableEq, Repr

/-- One pagination item: the pairing of a raw event batch with the
version history of its page (source type `historyBatch`, lines 83-86). -/
structure historyBatch where
  versionHistory : VersionHistory
  rawEventBatch : DataBlob
deriving DecidableEq, Repr

/-- Workflow states of the persistence package; only `running` is used by
this core (`persistence.WorkflowStateRunning`). -/
inductive WorkflowState where
  | created
  | running
  | completed
  | zombie
deriving DecidableEq, Repr

/-- The probe record handed to the invariant checker
(`checks.CurrentExecution`, embedding `checks.Execution`): only the
fields the source sets (source lines 314-320). -/
structure CurrentExecution where
  domainID : String
  workflowID : String
  state : WorkflowState
deriving DecidableEq, Repr

/-- Outcomes of an invariant check (`checks.CheckResultType`).  The
source switches on `Corrupted` and `Failed` and treats every other
outcome (in particular `Healthy`) through its default branch, so the
model keeps an `other` constructor for any further outcome value. -/
inductive CheckResultType where
  | healthy
  | corrupted
  | failed
  | other (value : String)
deriving DecidableEq, Repr

/-- The injected invariant-checking capability (`checks.Invariant`):
`check` yields the check outcome for a probe, `fix` attempts a repair
and reports whether it was applied; the source ignores that report. -/
structure Invariant where
  check : CurrentExecution → CheckResultType
  fix : CurrentExecution → Bool

/-- One remote page (`admin.GetWorkflowExecutionRawHistoryV2Response`):
zero or more raw event batches, one version history for the page, and
the next-page token (empty means no further pages). -/
structure RawResponse where
  historyBatches : List DataBlob
  versionHistory : VersionHistory
  nextPageToken : List Nat
deriving DecidableEq, Repr

/-- Result of one remote fetch round trip: a response or an error. -/
inductive FetchResult where
  | ok (response : RawResponse)
  | err (e : GoError)
deriving DecidableEq, Repr

/-- The request issued to the remote admin client by `getHistory`
(source lines 284-296), recorded so that theorems can speak about the
tokens and bounds each fetch carried. -/
structure RawFetchRequest where
  domain : String
  execution : WorkflowExecution
  startEventID : Option Int
  startEventVersion : Option Int
  endEventID : Option Int
  endEventVersion : Option Int
  maximumPageSize : Int
  nextPageToken : List Nat
deriving DecidableEq, Repr

/-- Modelled from the spec: `defaultPageSize` is a fixed default
constant of the `xdc` package whose definition lies outside this source
slice; its exact value is irrelevant to every property proved here. -/
def defaultPageSize : Int := 100

/-- Observable events of one orchestrator run, in order of occurrence:
a remote fetch, a replication dispatch together with the collaborator's
result, an invariant check with its outcome, and an invariant fix. -/
inductive Event where
  | fetch (request : RawFetchRequest)
  | dispatch (request : ReplicateEventsV2Request) (result : Option GoError)
  | check (probe : CurrentExecution) (result : CheckResultType)
  | fix (probe : CurrentExecution)
deriving DecidableEq, Repr

/-- The resender with its injected collaborators
(`NDCHistoryResenderImpl`, source lines 72-81).  `domainLookup` is the
(per-run constant) result of `domainCache.GetDomainByID(domainID)`,
`pages` the successive answers of the remote admin client in the order
the run would receive them, `historyReplicationFn` the local replication
apply function, and `currentExecutionCheck` the optional invariant
checker (`nil` modelled as `none`). -/
structure NDCHistoryResenderImpl where
  domainLookup : Except GoError String
  pages : List FetchResult
  historyReplicationFn : ReplicateEventsV2Request → Option GoError
  currentExecutionCheck : Option Invariant

/-- The probe constructed by `fixCurrentExecution` (source lines
314-320): the call's domain ID and workflow ID in state running; the
run ID is not part of the probe. -/
def currentExecutionProbe (domainID workflowID : String) : CurrentExecution :=
  { domainID := domainID, workflowID := workflowID, state := WorkflowState.running }

/-- Repair gate `fixCurrentExecution` (source lines 305-337): returns
the skip decision together with the trace of checker events.  With no
checker configured it returns `false` without consulting anything;
otherwise it checks the running-state probe and switches on the
outcome: `corrupted` fixes once and does not skip, `failed` does not
skip, and every other outcome skips. -/
def fixCurrentExecution (currentExecutionCheck : Option Invariant)
    (domainID workflowID runID : String) : Bool × List Event :=
  match currentExecutionCheck with
  | none => (false, [])
  | some inv =>
    let execution := currentExecutionProbe domainID workflowID
    match inv.check execution with
    | CheckResultType.corrupted =>
      (false, [Event.check execution CheckResultType.corrupted, Event.fix execution])
    | CheckResultType.failed =>
      (false, [Event.check execution CheckResultType.failed])
    | res => (true, [Event.check execution res])

/-- Request constructor `createReplicationRawRequest` (source lines
230-248): builds the replication request directly from its five
arguments. -/
def createReplicationRawRequest (domainID workflowID runID : String)
    (historyBlob : DataBlob) (versionHistoryItems : List VersionHistoryItem) :
    ReplicateEventsV2Request :=
  { domainUUID := domainID
    workflowExecution := { workflowId := workflowID, runId := runID }
    events := historyBlob
    versionHistoryItems := versionHistoryItems }

/-- The replication request the orchestrator builds for one pagination
item (source lines 153-158). -/
def batchRequest (domainID workflowID runID : String) (b : historyBatch) :
    ReplicateEventsV2Request :=
  createReplicationRawRequest domainID workflowID runID b.rawEventBatch b.versionHistory.items

/-- Fan-out step of `getPaginationFn` (source lines 217-225): one
`historyBatch` item per raw event batch of the response, in order, each
carrying the page's version history. -/
def paginateItems (response : RawResponse) : List historyBatch :=
  response.historyBatches.map fun h =>
    { versionHistory := response.versionHistory, rawEventBatch := h }

/-- The fetch request `getHistory` issues for one round trip (source
lines 284-296): resolved domain name, execution identity, the four
optional bounds, the fixed page size, and the token round-tripped
verbatim. -/
def mkFetchRequest (domainName workflowID runID : String)
    (startEventID startEventVersion endEventID endEventVersion : Option Int)
    (token : List Nat) : RawFetchRequest :=
  { domain := domainName
    execution := { workflowId := workflowID, runId := runID }
    startEventID := startEventID
    startEventVersion := startEventVersion
    endEventID := endEventID
    endEventVersion := endEventVersion
    maximumPageSize := defaultPageSize
    nextPageToken := token }

/-- Outcome of dispatching the buffered items of one page: either all
batches were applied and the loop continues, or the call stops with an
error. -/
inductive LoopExit where
  | next
  | stop (e : GoError)
deriving DecidableEq, Repr

/-- Dispatch phase of the orchestrator loop (source lines 142-184,
applied to the buffered items of the current page): for each batch in
order, build the replication request and send it; on success continue,
on `EntityNotExistsError` consult the repair gate and stop with either
`ErrSkipTask` or the original error, on any other error stop with that
error. -/
def dispatchLoop (n : NDCHistoryResenderImpl) (domainID workflowID runID : String) :
    List historyBatch → LoopExit × List Event
  | [] => (LoopExit.next, [])
  | b :: rest =>
    let req := batchRequest domainID workflowID runID b
    match n.historyReplicationFn req with
    | none =>
      let pr := dispatchLoop n domainID workflowID runID rest
      (pr.1, Event.dispatch req none :: pr.2)
    | some (GoError.entityNotExists m) =>
      let gate := fixCurrentExecution n.currentExecutionCheck domainID workflowID runID
      (LoopExit.stop (if gate.1 then ErrSkipTask else GoError.entityNotExists m),
        Event.dispatch req (some (GoError.entityNotExists m)) :: gate.2)
    | some e => (LoopExit.stop e, [Event.dispatch req (some e)])

/-- Page phase of the orchestrator: one round of the pagination driver
followed by the dispatch phase.  The driver itself
(`collection.NewPagingIterator`) lies outside this source slice and is
modelled from the spec: starting from the empty token, each round
resolves the domain name, fetches one page with the current token,
fans the response out with `paginateItems`, dispatches every item, and
continues with the response's next-page token exactly when that token
is non-empty; an empty token ends the sequence with success.  `remaining`
is the list of answers the remote still has in store; running off its
end is a model boundary reported as a distinguished `other` error, and
every theorem about complete runs assumes the script covers the run. -/
def pageLoop (n : NDCHistoryResenderImpl) (domainID workflowID runID : String)
    (startEventID startEventVersion endEventID endEventVersion : Option Int) :
    List FetchResult → List Nat → Option GoError × List Event
  | [], _ =>
    (match n.domainLookup with
     | Except.error e => (some e, [])
     | Except.ok _ => (some (GoError.other "model: remote script exhausted"), []))
  | p :: rest, token =>
    match n.domainLookup with
    | Except.error e => (some e, [])
    | Except.ok domainName =>
      let freq := mkFetchRequest domainName workflowID runID
        startEventID startEventVersion endEventID endEventVersion token
      match p with
      | FetchResult.err e => (some e, [Event.fetch freq])
      | FetchResult.ok resp =>
        let step := dispatchLoop n domainID workflowID runID (paginateItems resp)
        match step.1 with
        | LoopExit.stop e => (some e, Event.fetch freq :: step.2)
        | LoopExit.next =>
          if resp.nextPageToken.isEmpty then (none, Event.fetch freq :: step.2)
          else
            let cont := pageLoop n domainID workflowID runID
              startEventID startEventVersion endEventID endEventVersion rest resp.nextPageToken
            (cont.1, Event.fetch freq :: (step.2 ++ cont.2))

/-- Orchestrator entry point `SendSingleWorkflowHistory` (source lines
112-186): drives the pagination loop from the start-of-sequence token
over the remote's scripted answers, returning the final error (`none`
models a `nil` return) and the event trace of the run. -/
def SendSingleWorkflowHistory (n : NDCHistoryResenderImpl) (domainID workflowID runID : String)
    (startEventID startEventVersion endEventID endEventVersion : Option Int) :
    Option GoError × List Event :=
  pageLoop n domainID workflowID runID
    startEventID startEventVersion endEventID endEventVersion n.pages []

/-- Replication requests of a trace, in dispatch order. -/
def dispatchedRequests (tr : List Event) : List ReplicateEventsV2Request :=
  tr.filterMap fun e =>
    match e with
    | Event.dispatch req _ => some req
    | _ => none

/-- Tokens carried by the fetch events of a trace, in fetch order. -/
def fetchTokens (tr : List Event) : List (List Nat) :=
  tr.filterMap fun e =>
    match e with
    | Event.fetch req => some req.nextPageToken
    | _ => none

/-- Invariant-check events of a trace: probe and outcome pairs. -/
def checkEvents (tr : List Event) : List (CurrentExecution × CheckResultType) :=
  tr.filterMap fun e =>
    match e with
    | Event.check probe res => some (probe, res)
    | _ => none

/-- Probes on which the invariant fix was invoked, in order. -/
def fixEvents (tr : List Event) : List CurrentExecution :=
  tr.filterMap fun e =>
    match e with
    | Event.fix probe => some probe
    | _ => none

/-- All raw batches of a response script, flattened in page order. -/
def flattenedBatches (rs : List RawResponse) : List historyBatch :=
  (rs.map paginateItems).flatten

/-- A response script is chained when every page except the last
carries a non-empty next-page token and the last page carries an empty
one, so a run that survives every page consumes the whole script. -/
def chainb : List RawResponse → Bool
  | [] => true
  | [r] => r.nextPageToken.isEmpty
  | r :: rest => (!r.nextPageToken.isEmpty) && chainb rest

/-- A fetch script is closed when it cannot run dry: it is non-empty
and, if its last answer is a successful page, that page ends the
pagination. -/
def scriptClosed : List FetchResult → Bool
  | [] => false
  | [FetchResult.ok r] => r.nextPageToken.isEmpty
  | [FetchResult.err _] => true
  | _ :: rest => scriptClosed rest

/-- The pagination tokens a run over a response script uses, page by
page: the starting token, then each page's next-page token handed to
the following fetch. -/
def tokensUsed : List Nat → List RawResponse → List (List Nat)
  | _, [] => []
  | token, resp :: rest => token :: tokensUsed resp.nextPageToken rest

/-- A response script whose last page ends the pagination (empty
next-page token); vacuously false for the empty script. -/
def lastTokenEmpty (rs : List RawResponse) : Bool :=
  match rs.getLast? with
  | some resp => resp.nextPageToken.isEmpty
  | none => false

/-- The canonical trace of a fully successful run over a chained
response script: for each page, one fetch carrying the current token
followed by one successful dispatch per raw batch of that page, the
next page keyed by the page's next-page token. -/
def canonicalTrace (domainID workflowID runID domainName : String)
    (startEventID startEventVersion endEventID endEventVersion : Option Int) :
    List Nat → List RawResponse → List Event
  | _, [] => []
  | token, resp :: rest =>
    Event.fetch (mkFetchRequest domainName workflowID runID
        startEventID startEventVersion endEventID endEventVersion token) ::
      ((paginateItems resp).map fun b =>
        Event.dispatch (batchRequest domainID workflowID runID b) none) ++
      canonicalTrace domainID workflowID runID domainName
        startEventID startEventVersion endEventID endEventVersion resp.nextPageToken rest

/-- A checker whose check always reports healthy; used to instantiate
theorems on concrete runs. -/
def healthyChecker : Invariant :=
  { check := fun _ => CheckResultType.healthy, fix := fun _ => true }

/-- A checker whose check always reports corrupted. -/
def corruptedChecker : Invariant :=
  { check := fun _ => CheckResultType.corrupted, fix := fun _ => true }

/-- Sample version-history entry for concrete runs. -/
def sampleItem : VersionHistoryItem := { eventID := 5, version := 10 }

/-- Sample version history for concrete runs. -/
def sampleVH : VersionHistory := { items := [sampleItem] }

/-- Sample raw event blobs for concrete runs. -/
def blobA : DataBlob := { data := [1] }

/-- Second sample blob. -/
def blobB : DataBlob := { data := [2] }

/-- Third sample blob. -/
def blobC : DataBlob := { data := [3] }

/-- Fourth sample blob. -/
def blobD : DataBlob := { data := [4] }

/-- Sample first page: three batches and a non-empty next-page token. -/
def pageOne : RawResponse :=
  { historyBatches := [blobA, blobB, blobC], versionHistory := sampleVH, nextPageToken := [7] }

/-- Sample last page: one batch and an empty next-page token. -/
def pageTwo : RawResponse :=
  { historyBatches := [blobD], versionHistory := sampleVH, nextPageToken := [] }

/-- Sample resender whose remote serves two successful pages and whose
replication function accepts everything. -/
def okResender : NDCHistoryResenderImpl :=
  { domainLookup := Except.ok "sourceDomain"
    pages := [FetchResult.ok pageOne, FetchResult.ok pageTwo]
    historyReplicationFn := fun _ => none
    currentExecutionCheck := none }

/-- Sample resender whose replication function rejects every request
with an entity-not-exists error; the checker is a parameter. -/
def notFoundResender (checker : Option Invariant) : NDCHistoryResenderImpl :=
  { domainLookup := Except.ok "sourceDomain"
    pages := [FetchResult.ok pageTwo]
    historyReplicationFn := fun _ => some (GoError.entityNotExists "nf")
    currentExecutionCheck := checker }

/-- The single pagination item of `pageTwo`. -/
def batchD : historyBatch := { versionHistory := sampleVH, rawEventBatch := blobD }

/-- Sample page with no raw event batches and an empty token. -/
def emptyPage : RawResponse :=
  { historyBatches := [], versionHistory := sampleVH, nextPageToken := [] }

/-- Sample resender whose replication function rejects every request
with an ordinary (non-not-found) error. -/
def boomResender : NDCHistoryResenderImpl :=
  { domainLookup := Except.ok "sourceDomain"
    pages := [FetchResult.ok pageTwo]
    historyReplicationFn := fun _ => some (GoError.other "boom")
    currentExecutionCheck := none }

/-- C1: the repair gate `fixCurrentExecution` implements exactly the
four-way decision table: no checker configured gives skip = false with
no check and no fix; a corrupted check outcome invokes fix exactly once
on the probe and gives skip = false; a failed check outcome gives
skip = false without fix; any other outcome (healthy included) gives
skip = true without fix. -/
theorem fixCurrentExecution_decision_table (inv : Invariant)
    (domainID workflowID runID : String) :
    fixCurrentExecution none domainID workflowID runID = (false, []) ∧
    (inv.check (currentExecutionProbe domainID workflowID) = CheckResultType.corrupted →
      fixCurrentExecution (some inv) domainID workflowID runID =
        (false, [Event.check (currentExecutionProbe domainID workflowID) CheckResultType.corrupted,
          Event.fix (currentExecutionProbe domainID workflowID)])) ∧
    (inv.check (currentExecutionProbe domainID workflowID) = CheckResultType.failed →
      fixCurrentExecution (some inv) domainID workflowID runID =
        (false, [Event.check (currentExecutionProbe domainID workflowID) CheckResultType.failed])) ∧
    (inv.check (currentExecutionProbe domainID workflowID) ≠ CheckResultType.corrupted →
      inv.check (currentExecutionProbe domainID workflowID) ≠ CheckResultType.failed →
      fixCurrentExecution (some inv) domainID workflowID runID =
        (true, [Event.check (currentExecutionProbe domainID workflowID)
          (inv.check (currentExecutionProbe domainID workflowID))])) := by
  refine ⟨rfl, ?_, ?_, ?_⟩
  · intro h
    simp only [fixCurrentExecution, h]
  · intro h
    simp only [fixCurrentExecution, h]
  · intro h1 h2
    rcases hc : inv.check (currentExecutionProbe domainID workflowID) with _ | _ | _ | v
    · simp only [fixCurrentExecution, hc]
    · exact absurd hc h1
    · exact absurd hc h2
    · simp only [fixCurrentExecution, hc]

/-- Witness for C1 at a concrete corrupted checker: the hypothesis of
the corrupted branch holds definitionally and the gate repairs once
while reporting skip = false. -/
theorem fixCurrentExecution_decision_table_witness :
    corruptedChecker.check (currentExecutionProbe "dom" "wf") = CheckResultType.corrupted ∧
    fixCurrentExecution (some corruptedChecker) "dom" "wf" "run" =
      (false, [Event.check (currentExecutionProbe "dom" "wf") CheckResultType.corrupted,
        Event.fix (currentExecutionProbe "dom" "wf")]) :=
  ⟨rfl, (fixCurrentExecution_decision_table corruptedChecker "dom" "wf" "run").2.1 rfl⟩

/-- C7: `createReplicationRawRequest` is a pure, deterministic function
of its five inputs: the constructed request carries exactly those
inputs in its fields, and two invocations on equal inputs yield equal
requests. -/
theorem createReplicationRawRequest_pure (domainID workflowID runID d2 w2 r2 : String)
    (blob blob2 : DataBlob) (items items2 : List VersionHistoryItem) :
    (createReplicationRawRequest domainID workflowID runID blob items).domainUUID = domainID ∧
    (createReplicationRawRequest domainID workflowID runID blob items).workflowExecution =
      { workflowId := workflowID, runId := runID } ∧
    (createReplicationRawRequest domainID workflowID runID blob items).events = blob ∧
    (createReplicationRawRequest domainID workflowID runID blob items).versionHistoryItems =
      items ∧
    (domainID = d2 → workflowID = w2 → runID = r2 → blob = blob2 → items = items2 →
      createReplicationRawRequest domainID workflowID runID blob items =
        createReplicationRawRequest d2 w2 r2 blob2 items2) := by
  refine ⟨rfl, rfl, rfl, rfl, ?_⟩
  intro h1 h2 h3 h4 h5
  subst h1; subst h2; subst h3; subst h4; subst h5
  rfl

/-- Witness for C7 at concrete inputs, discharging the equal-input
hypotheses definitionally. -/
theorem createReplicationRawRequest_pure_witness :
    createReplicationRawRequest "dom" "wf" "run" blobA [sampleItem] =
      createReplicationRawRequest "dom" "wf" "run" blobA [sampleItem] :=
  (createReplicationRawRequest_pure "dom" "wf" "run" "dom" "wf" "run"
    blobA blobA [sampleItem] [sampleItem]).2.2.2.2 rfl rfl rfl rfl rfl

/-- C10: every probe the gate hands to the invariant checker is in
state running and carries exactly the call's domain ID and workflow ID,
and the skip decision depends only on the check outcome: two checkers
with the same check function produce the same skip decision whatever
their fix functions do, and a corrupted outcome yields skip = false. -/
theorem fixCurrentExecution_probe_running_fix_ignored (inv inv2 : Invariant)
    (domainID workflowID runID : String) :
    (∀ pr res,
      (pr, res) ∈ checkEvents (fixCurrentExecution (some inv) domainID workflowID runID).2 →
      pr.state = WorkflowState.running ∧ pr.domainID = domainID ∧ pr.workflowID = workflowID) ∧
    (inv.check = inv2.check →
      (fixCurrentExecution (some inv) domainID workflowID runID).1 =
        (fixCurrentExecution (some inv2) domainID workflowID runID).1) ∧
    (inv.check (currentExecutionProbe domainID workflowID) = CheckResultType.corrupted →
      (fixCurrentExecution (some inv) domainID workflowID runID).1 = false) := by
  refine ⟨?_, ?_, ?_⟩
  · intro pr res hmem
    rcases hc : inv.check (currentExecutionProbe domainID workflowID) with _ | _ | _ | v <;>
      simp only [fixCurrentExecution, hc, checkEvents, List.filterMap] at hmem <;>
      simp only [List.mem_cons, List.not_mem_nil, or_false, Prod.mk.injEq] at hmem <;>
      rcases hmem with ⟨h1, _⟩ <;>
      subst h1 <;>
      exact ⟨rfl, rfl, rfl⟩
  · intro h
    rcases hc : inv2.check (currentExecutionProbe domainID workflowID) with _ | _ | _ | v <;>
      simp only [fixCurrentExecution, h, hc]
  · intro h
    simp only [fixCurrentExecution, h]

/-- Witness for C10 at the healthy checker: membership in the singleton
check-event list and equality of check functions are discharged
concretely. -/
theorem fixCurrentExecution_probe_running_fix_ignored_witness :
    (currentExecutionProbe "dom" "wf", CheckResultType.healthy) ∈
      checkEvents (fixCurrentExecution (some healthyChecker) "dom" "wf" "run").2 ∧
    (currentExecutionProbe "dom" "wf").state = WorkflowState.running ∧
    (currentExecutionProbe "dom" "wf").domainID = "dom" ∧
    (currentExecutionProbe "dom" "wf").workflowID = "wf" :=
  ⟨by decide,
    (fixCurrentExecution_probe_running_fix_ignored healthyChecker healthyChecker
      "dom" "wf" "run").1 (currentExecutionProbe "dom" "wf") CheckResultType.healthy
      (by decide)⟩

/-- Counterexample to C3: a not-found error surfaced by the fetch path
(first remote fetch fails with entity-not-exists) is returned
unmodified even though a healthy invariant checker is configured — the
call does not return the skip sentinel and the gate is never consulted
(no check event, no fix event). -/
theorem fetch_notFound_not_gated_cex :
    (SendSingleWorkflowHistory
      { domainLookup := Except.ok "sourceDomain"
        pages := [FetchResult.err (GoError.entityNotExists "workflow gone")]
        historyReplicationFn := fun _ => none
        currentExecutionCheck := some healthyChecker }
      "d1" "w1" "r1" none none none none).1 =
      some (GoError.entityNotExists "workflow gone") ∧
    some (GoError.entityNotExists "workflow gone") ≠ some ErrSkipTask ∧
    checkEvents (SendSingleWorkflowHistory
      { domainLookup := Except.ok "sourceDomain"
        pages := [FetchResult.err (GoError.entityNotExists "workflow gone")]
        historyReplicationFn := fun _ => none
        currentExecutionCheck := some healthyChecker }
      "d1" "w1" "r1" none none none none).2 = [] ∧
    fixEvents (SendSingleWorkflowHistory
      { domainLookup := Except.ok "sourceDomain"
        pages := [FetchResult.err (GoError.entityNotExists "workflow gone")]
        historyReplicationFn := fun _ => none
        currentExecutionCheck := some healthyChecker }
      "d1" "w1" "r1" none none none none).2 = [] := by
  refine ⟨rfl, ?_, rfl, rfl⟩
  intro h
  simp only [Option.some.injEq] at h
  exact GoError.noConfusion h

/-- C3 as amended: an error surfaced from the fetch path (the history
iterator) is returned unmodified and the Repair Gate is never invoked
for it — no invariant check and no fix happen, whatever checker is
configured; the gate is reserved for dispatch errors.  Stated both for
an arbitrary point of the pagination (any failing fetch after the
current token) and for the entry point when the first fetch fails. -/
theorem fetch_error_returned_unmodified (n : NDCHistoryResenderImpl)
    (domainID workflowID runID domainName : String)
    (sid sv eid ev : Option Int) (e : GoError) (rest : List FetchResult) (token : List Nat)
    (hdl : n.domainLookup = Except.ok domainName) :
    pageLoop n domainID workflowID runID sid sv eid ev (FetchResult.err e :: rest) token =
      (some e,
        [Event.fetch (mkFetchRequest domainName workflowID runID sid sv eid ev token)]) ∧
    checkEvents [Event.fetch (mkFetchRequest domainName workflowID runID sid sv eid ev token)] =
      [] ∧
    fixEvents [Event.fetch (mkFetchRequest domainName workflowID runID sid sv eid ev token)] =
      [] ∧
    (n.pages = FetchResult.err e :: rest →
      SendSingleWorkflowHistory n domainID workflowID runID sid sv eid ev =
        (some e,
          [Event.fetch (mkFetchRequest domainName workflowID runID sid sv eid ev [])])) := by
  refine ⟨?_, rfl, rfl, ?_⟩
  · simp only [pageLoop, hdl]
  · intro hp
    simp only [SendSingleWorkflowHistory, hp, pageLoop, hdl]

/-- Witness for the amended C3 at a concrete resender whose first fetch
fails with entity-not-exists. -/
theorem fetch_error_returned_unmodified_witness :
    NDCHistoryResenderImpl.domainLookup
      { domainLookup := Except.ok "sourceDomain"
        pages := [FetchResult.err (GoError.entityNotExists "workflow gone")]
        historyReplicationFn := fun _ => none
        currentExecutionCheck := some healthyChecker } = Except.ok "sourceDomain" ∧
    SendSingleWorkflowHistory
      { domainLookup := Except.ok "sourceDomain"
        pages := [FetchResult.err (GoError.entityNotExists "workflow gone")]
        historyReplicationFn := fun _ => none
        currentExecutionCheck := some healthyChecker }
      "d1" "w1" "r1" none none none none =
      (some (GoError.entityNotExists "workflow gone"),
        [Event.fetch (mkFetchRequest "sourceDomain" "w1" "r1" none none none none [])]) :=
  ⟨rfl,
    (fetch_error_returned_unmodified
      { domainLookup := Except.ok "sourceDomain"
        pages := [FetchResult.err (GoError.entityNotExists "workflow gone")]
        historyReplicationFn := fun _ => none
        currentExecutionCheck := some healthyChecker }
      "d1" "w1" "r1" "sourceDomain" none none none none
      (GoError.entityNotExists "workflow gone") [] [] rfl).2.2.2 rfl⟩

/-- Counterexample to C8: when the replication function rejects the
first request with an ordinary error, the value returned by
`SendSingleWorkflowHistory` is exactly the collaborator's error value,
unmodified — no execution-identity enrichment happens on the returned
error (the identity appears only in logging, which returns nothing). -/
theorem returned_error_unmodified_cex :
    (SendSingleWorkflowHistory
      { domainLookup := Except.ok "sourceDomain"
        pages := [FetchResult.ok pageTwo]
        historyReplicationFn := fun _ => some (GoError.other "apply failed")
        currentExecutionCheck := none }
      "d1" "w1" "r1" none none none none).1 = some (GoError.other "apply failed") := by
  rfl

theorem dispatchedRequests_nil : dispatchedRequests [] = [] := rfl

@[simp]
theorem dispatchedRequests_cons_dispatch (q : ReplicateEventsV2Request) (res : Option GoError)
    (t : List Event) : dispatchedRequests (Event.dispatch q res :: t) =
      q :: dispatchedRequests t := rfl

@[simp]
theorem dispatchedRequests_cons_fetch (q : RawFetchRequest) (t : List Event) :
    dispatchedRequests (Event.fetch q :: t) = dispatchedRequests t := rfl

@[simp]
theorem dispatchedRequests_cons_check (pr : CurrentExecution) (res : CheckResultType)
    (t : List Event) : dispatchedRequests (Event.check pr res :: t) = dispatchedRequests t := rfl

@[simp]
theorem dispatchedRequests_cons_fix (pr : CurrentExecution) (t : List Event) :
    dispatchedRequests (Event.fix pr :: t) = dispatchedRequests t := rfl

@[simp]
theorem fetchTokens_cons_fetch (q : RawFetchRequest) (t : List Event) :
    fetchTokens (Event.fetch q :: t) = q.nextPageToken :: fetchTokens t := rfl

@[simp]
theorem fetchTokens_cons_dispatch (q : ReplicateEventsV2Request) (res : Option GoError)
    (t : List Event) : fetchTokens (Event.dispatch q res :: t) = fetchTokens t := rfl

theorem dispatchedRequests_append (a b : List Event) :
    dispatchedRequests (a ++ b) = dispatchedRequests a ++ dispatchedRequests b :=
  List.filterMap_append a b _

theorem fetchTokens_append (a b : List Event) :
    fetchTokens (a ++ b) = fetchTokens a ++ fetchTokens b :=
  List.filterMap_append a b _

theorem fixTrace_no_dispatch (c : Option Invariant) (domainID workflowID runID : String)
    (req : ReplicateEventsV2Request) (res : Option GoError) :
    Event.dispatch req res ∉ (fixCurrentExecution c domainID workflowID runID).2 := by
  cases c with
  | none => simp [fixCurrentExecution]
  | some inv =>
    rcases hc : inv.check (currentExecutionProbe domainID workflowID) with _ | _ | _ | v <;>
      simp [fixCurrentExecution, hc]

theorem pageLoop_domain_err (n : NDCHistoryResenderImpl)
    (domainID workflowID runID : String) (sid sv eid ev : Option Int) (e : GoError)
    (hdl : n.domainLookup = Except.error e) :
    ∀ (remaining : List FetchResult) (token : List Nat),
    pageLoop n domainID workflowID runID sid sv eid ev remaining token = (some e, []) := by
  intro remaining token
  cases remaining <;> simp only [pageLoop, hdl]

theorem pageLoop_fetch_err (n : NDCHistoryResenderImpl)
    (domainID workflowID runID domainName : String) (sid sv eid ev : Option Int) (e : GoError)
    (rest : List FetchResult) (token : List Nat)
    (hdl : n.domainLookup = Except.ok domainName) :
    pageLoop n domainID workflowID runID sid sv eid ev (FetchResult.err e :: rest) token =
      (some e,
        [Event.fetch (mkFetchRequest domainName workflowID runID sid sv eid ev token)]) := by
  simp only [pageLoop, hdl]

theorem pageLoop_page_stop (n : NDCHistoryResenderImpl)
    (domainID workflowID runID domainName : String) (sid sv eid ev : Option Int) (e : GoError)
    (resp : RawResponse) (rest : List FetchResult) (token : List Nat)
    (hdl : n.domainLookup = Except.ok domainName)
    (hstep : (dispatchLoop n domainID workflowID runID (paginateItems resp)).1 =
      LoopExit.stop e) :
    pageLoop n domainID workflowID runID sid sv eid ev (FetchResult.ok resp :: rest) token =
      (some e,
        Event.fetch (mkFetchRequest domainName workflowID runID sid sv eid ev token) ::
          (dispatchLoop n domainID workflowID runID (paginateItems resp)).2) := by
  simp only [pageLoop, hdl, hstep]

theorem pageLoop_page_end (n : NDCHistoryResenderImpl)
    (domainID workflowID runID domainName : String) (sid sv eid ev : Option Int)
    (resp : RawResponse) (rest : List FetchResult) (token : List Nat)
    (hdl : n.domainLookup = Except.ok domainName)
    (hstep : (dispatchLoop n domainID workflowID runID (paginateItems resp)).1 = LoopExit.next)
    (htk : resp.nextPageToken.isEmpty = true) :
    pageLoop n domainID workflowID runID sid sv eid ev (FetchResult.ok resp :: rest) token =
      (none,
        Event.fetch (mkFetchRequest domainName workflowID runID sid sv eid ev token) ::
          (dispatchLoop n domainID workflowID runID (paginateItems resp)).2) := by
  simp only [pageLoop, hdl, hstep, htk, if_true]

theorem pageLoop_page_cont (n : NDCHistoryResenderImpl)
    (domainID workflowID runID domainName : String) (sid sv eid ev : Option Int)
    (resp : RawResponse) (rest : List FetchResult) (token : List Nat)
    (hdl : n.domainLookup = Except.ok domainName)
    (hstep : (dispatchLoop n domainID workflowID runID (paginateItems resp)).1 = LoopExit.next)
    (htk : resp.nextPageToken.isEmpty = false) :
    pageLoop n domainID workflowID runID sid sv eid ev (FetchResult.ok resp :: rest) token =
      ((pageLoop n domainID workflowID runID sid sv eid ev rest resp.nextPageToken).1,
        Event.fetch (mkFetchRequest domainName workflowID runID sid sv eid ev token) ::
          ((dispatchLoop n domainID workflowID runID (paginateItems resp)).2 ++
            (pageLoop n domainID workflowID runID sid sv eid ev rest
              resp.nextPageToken).2)) := by
  simp only [pageLoop, hdl, hstep, htk, Bool.false_eq_true, if_false]

theorem dispatchLoop_all_none (n : NDCHistoryResenderImpl) (domainID workflowID runID : String)
    (bs : List historyBatch)
    (h : ∀ b ∈ bs, n.historyReplicationFn (batchRequest domainID workflowID runID b) = none) :
    dispatchLoop n domainID workflowID runID bs =
      (LoopExit.next,
        bs.map fun b => Event.dispatch (batchRequest domainID workflowID runID b) none) := by
  induction bs with
  | nil => rfl
  | cons b rest ih =>
    have hb := h b (List.mem_cons_self b rest)
    have hr := ih fun x hx => h x (List.mem_cons_of_mem b hx)
    simp only [dispatchLoop, hb, hr, List.map]

theorem dispatchLoop_next_mem (n : NDCHistoryResenderImpl) (domainID workflowID runID : String)
    (bs : List historyBatch) (q : ReplicateEventsV2Request) (res : Option GoError)
    (hnext : (dispatchLoop n domainID workflowID runID bs).1 = LoopExit.next)
    (hmem : Event.dispatch q res ∈ (dispatchLoop n domainID workflowID runID bs).2) :
    res = none := by
  induction bs with
  | nil => simp [dispatchLoop] at hmem
  | cons b rest ih =>
    cases hfn : n.historyReplicationFn (batchRequest domainID workflowID runID b) with
    | none =>
      simp only [dispatchLoop, hfn] at hnext hmem
      rcases List.mem_cons.mp hmem with h | h
      · injection h with h1 h2
      · exact ih hnext h
    | some e =>
      cases e <;> simp only [dispatchLoop, hfn] at hnext <;>
        exact LoopExit.noConfusion hnext

theorem dispatchLoop_mem_some (n : NDCHistoryResenderImpl) (domainID workflowID runID : String)
    (bs : List historyBatch) (req : ReplicateEventsV2Request) (er : GoError)
    (hmem : Event.dispatch req (some er) ∈ (dispatchLoop n domainID workflowID runID bs).2) :
    n.historyReplicationFn req = some er ∧
    (∀ m, er = GoError.entityNotExists m →
      (dispatchLoop n domainID workflowID runID bs).1 =
        LoopExit.stop
          (if (fixCurrentExecution n.currentExecutionCheck domainID workflowID runID).1 then
            ErrSkipTask else er) ∧
      ∃ pre, (dispatchLoop n domainID workflowID runID bs).2 =
        pre ++ (Event.dispatch req (some er) ::
          (fixCurrentExecution n.currentExecutionCheck domainID workflowID runID).2)) ∧
    ((∀ m, er ≠ GoError.entityNotExists m) →
      (dispatchLoop n domainID workflowID runID bs).1 = LoopExit.stop er ∧
      ∃ pre, (dispatchLoop n domainID workflowID runID bs).2 =
        pre ++ [Event.dispatch req (some er)]) := by
  induction bs with
  | nil => simp [dispatchLoop] at hmem
  | cons b rest ih =>
    cases hfn : n.historyReplicationFn (batchRequest domainID workflowID runID b) with
    | none =>
      simp only [dispatchLoop, hfn] at hmem ⊢
      rcases List.mem_cons.mp hmem with h | h
      · injection h with h1 h2
        exact absurd h2 (by simp)
      · obtain ⟨g1, g2, g3⟩ := ih h
        refine ⟨g1, ?_, ?_⟩
        · intro m hm
          obtain ⟨e1, pre, e2⟩ := g2 m hm
          exact ⟨e1, Event.dispatch (batchRequest domainID workflowID runID b) none :: pre,
            by simp [e2]⟩
        · intro hne
          obtain ⟨e1, pre, e2⟩ := g3 hne
          exact ⟨e1, Event.dispatch (batchRequest domainID workflowID runID b) none :: pre,
            by simp [e2]⟩
    | some e =>
      cases e with
      | entityNotExists m =>
        simp only [dispatchLoop, hfn] at hmem ⊢
        rcases List.mem_cons.mp hmem with h | h
        · injection h with h1 h2
          injection h2 with h3
          subst h1
          subst h3
          refine ⟨hfn, ?_, ?_⟩
          · intro m2 hm
            exact ⟨rfl, [], rfl⟩
          · intro hne
            exact absurd rfl (hne m)
        · exact absurd h (fixTrace_no_dispatch _ _ _ _ _ _)
      | skipTask =>
        simp only [dispatchLoop, hfn] at hmem ⊢
        rcases List.mem_cons.mp hmem with h | h
        · injection h with h1 h2
          injection h2 with h3
          subst h1
          subst h3
          refine ⟨hfn, ?_, ?_⟩
          · intro m2 hm
            exact absurd hm (by simp)
          · intro hne
            exact ⟨rfl, [], rfl⟩
        · simp at h
      | other s =>
        simp only [dispatchLoop, hfn] at hmem ⊢
        rcases List.mem_cons.mp hmem with h | h
        · injection h with h1 h2
          injection h2 with h3
          subst h1
          subst h3
          refine ⟨hfn, ?_, ?_⟩
          · intro m2 hm
            exact absurd hm (by simp)
          · intro hne
            exact ⟨rfl, [], rfl⟩
        · simp at h

theorem pageLoop_mem_some (n : NDCHistoryResenderImpl) (domainID workflowID runID : String)
    (sid sv eid ev : Option Int) (req : ReplicateEventsV2Request) (er : GoError) :
    ∀ (remaining : List FetchResult) (token : List Nat),
    Event.dispatch req (some er) ∈
      (pageLoop n domainID workflowID runID sid sv eid ev remaining token).2 →
    n.historyReplicationFn req = some er ∧
    (∀ m, er = GoError.entityNotExists m →
      (pageLoop n domainID workflowID runID sid sv eid ev remaining token).1 =
        some
          (if (fixCurrentExecution n.currentExecutionCheck domainID workflowID runID).1 then
            ErrSkipTask else er) ∧
      ∃ pre, (pageLoop n domainID workflowID runID sid sv eid ev remaining token).2 =
        pre ++ (Event.dispatch req (some er) ::
          (fixCurrentExecution n.currentExecutionCheck domainID workflowID runID).2)) ∧
    ((∀ m, er ≠ GoError.entityNotExists m) →
      (pageLoop n domainID workflowID runID sid sv eid ev remaining token).1 = some er ∧
      ∃ pre, (pageLoop n domainID workflowID runID sid sv eid ev remaining token).2 =
        pre ++ [Event.dispatch req (some er)]) := by
  intro remaining
  induction remaining with
  | nil =>
    intro token hmem
    cases hdl : n.domainLookup <;> simp [pageLoop, hdl] at hmem
  | cons p rest ih =>
    intro token hmem
    cases hdl : n.domainLookup with
    | error e => simp [pageLoop, hdl] at hmem
    | ok domainName =>
      cases p with
      | err e => simp [pageLoop, hdl] at hmem
      | ok resp =>
        cases hstep : (dispatchLoop n domainID workflowID runID (paginateItems resp)).1 with
        | stop e =>
          simp only [pageLoop, hdl, hstep] at hmem ⊢
          rcases List.mem_cons.mp hmem with h | h
          · exact absurd h (by simp)
          · obtain ⟨g1, g2, g3⟩ :=
              dispatchLoop_mem_some n domainID workflowID runID (paginateItems resp) req er h
            refine ⟨g1, ?_, ?_⟩
            · intro m hm
              obtain ⟨e1, pre, e2⟩ := g2 m hm
              rw [hstep] at e1
              injection e1 with e3
              refine ⟨by rw [e3], Event.fetch (mkFetchRequest domainName workflowID runID
                sid sv eid ev token) :: pre, by simp [e2]⟩
            · intro hne
              obtain ⟨e1, pre, e2⟩ := g3 hne
              rw [hstep] at e1
              injection e1 with e3
              refine ⟨by rw [e3], Event.fetch (mkFetchRequest domainName workflowID runID
                sid sv eid ev token) :: pre, by simp [e2]⟩
        | next =>
          cases htk : resp.nextPageToken.isEmpty with
          | true =>
            simp only [pageLoop, hdl, hstep, htk, if_true] at hmem ⊢
            rcases List.mem_cons.mp hmem with h | h
            · exact absurd h (by simp)
            · have hres := dispatchLoop_next_mem n domainID workflowID runID
                (paginateItems resp) req (some er) hstep h
              exact absurd hres (by simp)
          | false =>
            simp only [pageLoop, hdl, hstep, htk, Bool.false_eq_true, if_false] at hmem ⊢
            rcases List.mem_cons.mp hmem with h | h
            · exact absurd h (by simp)
            · rcases List.mem_append.mp h with h2 | h2
              · have hres := dispatchLoop_next_mem n domainID workflowID runID
                  (paginateItems resp) req (some er) hstep h2
                exact absurd hres (by simp)
              · obtain ⟨g1, g2, g3⟩ := ih resp.nextPageToken h2
                refine ⟨g1, ?_, ?_⟩
                · intro m hm
                  obtain ⟨e1, pre, e2⟩ := g2 m hm
                  refine ⟨e1, Event.fetch (mkFetchRequest domainName workflowID runID
                    sid sv eid ev token) ::
                      ((dispatchLoop n domainID workflowID runID (paginateItems resp)).2 ++ pre),
                    by simp [e2]⟩
                · intro hne
                  obtain ⟨e1, pre, e2⟩ := g3 hne
                  refine ⟨e1, Event.fetch (mkFetchRequest domainName workflowID runID
                    sid sv eid ev token) ::
                      ((dispatchLoop n domainID workflowID runID (paginateItems resp)).2 ++ pre),
                    by simp [e2]⟩

theorem dispatchedRequests_map_dispatch (domainID workflowID runID : String)
    (l : List historyBatch) :
    dispatchedRequests (l.map fun b =>
      Event.dispatch (batchRequest domainID workflowID runID b) none) =
      l.map (batchRequest domainID workflowID runID) := by
  induction l with
  | nil => rfl
  | cons b t ih => simp [ih]

theorem fetchTokens_map_dispatch (domainID workflowID runID : String)
    (l : List historyBatch) :
    fetchTokens (l.map fun b =>
      Event.dispatch (batchRequest domainID workflowID runID b) none) = [] := by
  induction l with
  | nil => rfl
  | cons b t ih => simp [ih]

theorem pageLoop_allOk (n : NDCHistoryResenderImpl)
    (domainID workflowID runID domainName : String) (sid sv eid ev : Option Int)
    (hdl : n.domainLookup = Except.ok domainName)
    (hfn : ∀ req, n.historyReplicationFn req = none) :
    ∀ (rs : List RawResponse) (token : List Nat), rs ≠ [] → chainb rs = true →
    pageLoop n domainID workflowID runID sid sv eid ev (rs.map FetchResult.ok) token =
      (none, canonicalTrace domainID workflowID runID domainName sid sv eid ev token rs) := by
  intro rs
  induction rs with
  | nil => intro token h _; exact absurd rfl h
  | cons resp rest ih =>
    intro token _ hch
    have hstep := dispatchLoop_all_none n domainID workflowID runID (paginateItems resp)
      fun b _ => hfn _
    cases rest with
    | nil =>
      have htk : resp.nextPageToken.isEmpty = true := by simpa [chainb] using hch
      rw [List.map_cons, List.map_nil,
        pageLoop_page_end n domainID workflowID runID domainName sid sv eid ev resp [] token
          hdl (by rw [hstep]) htk]
      simp [hstep, canonicalTrace]
    | cons q qs =>
      simp only [chainb, Bool.and_eq_true, Bool.not_eq_eq_eq_not, Bool.not_true] at hch
      obtain ⟨hne, hch2⟩ := hch
      rw [List.map_cons,
        pageLoop_page_cont n domainID workflowID runID domainName sid sv eid ev resp
          (List.map FetchResult.ok (q :: qs)) token hdl (by rw [hstep]) hne,
        ih resp.nextPageToken (by simp) hch2]
      simp [hstep, canonicalTrace]

theorem dispatchLoop_next_of_dispatched (n : NDCHistoryResenderImpl)
    (domainID workflowID runID : String) (bs : List historyBatch)
    (h : ∀ req ∈ dispatchedRequests (dispatchLoop n domainID workflowID runID bs).2,
      n.historyReplicationFn req = none) :
    dispatchLoop n domainID workflowID runID bs =
      (LoopExit.next,
        bs.map fun b => Event.dispatch (batchRequest domainID workflowID runID b) none) := by
  induction bs with
  | nil => rfl
  | cons b rest ih =>
    have hb : n.historyReplicationFn (batchRequest domainID workflowID runID b) = none := by
      apply h
      cases hfn : n.historyReplicationFn (batchRequest domainID workflowID runID b) with
      | none => simp [dispatchLoop, hfn]
      | some e => cases e <;> simp [dispatchLoop, hfn]
    have hr := ih fun req hreq => by
      apply h
      simp only [dispatchLoop, hb, dispatchedRequests_cons_dispatch, List.mem_cons]
      exact Or.inr hreq
    simp only [dispatchLoop, hb, hr, List.map]

theorem pageLoop_ok_of_dispatched (n : NDCHistoryResenderImpl)
    (domainID workflowID runID domainName : String) (sid sv eid ev : Option Int)
    (hdl : n.domainLookup = Except.ok domainName) :
    ∀ (rs : List RawResponse) (token : List Nat), rs ≠ [] → lastTokenEmpty rs = true →
    (∀ req ∈ dispatchedRequests
      (pageLoop n domainID workflowID runID sid sv eid ev (rs.map FetchResult.ok) token).2,
      n.historyReplicationFn req = none) →
    (pageLoop n domainID workflowID runID sid sv eid ev (rs.map FetchResult.ok) token).1 =
      none := by
  intro rs
  induction rs with
  | nil => intro token h _ _; exact absurd rfl h
  | cons resp rest ih =>
    intro token _ hlast hdisp
    have hsub : ∀ req ∈ dispatchedRequests
        (dispatchLoop n domainID workflowID runID (paginateItems resp)).2,
        n.historyReplicationFn req = none := by
      intro req hreq
      apply hdisp
      rw [List.map_cons]
      cases hstep : (dispatchLoop n domainID workflowID runID (paginateItems resp)).1 with
      | stop e =>
        rw [pageLoop_page_stop n domainID workflowID runID domainName sid sv eid ev e resp
          (List.map FetchResult.ok rest) token hdl hstep]
        simpa using hreq
      | next =>
        cases htk : resp.nextPageToken.isEmpty with
        | true =>
          rw [pageLoop_page_end n domainID workflowID runID domainName sid sv eid ev resp
            (List.map FetchResult.ok rest) token hdl hstep htk]
          simpa using hreq
        | false =>
          rw [pageLoop_page_cont n domainID workflowID runID domainName sid sv eid ev resp
            (List.map FetchResult.ok rest) token hdl hstep htk]
          simp only [dispatchedRequests_cons_fetch, dispatchedRequests_append,
            List.mem_append]
          exact Or.inl hreq
    have hstep := dispatchLoop_next_of_dispatched n domainID workflowID runID
      (paginateItems resp) hsub
    cases htk : resp.nextPageToken.isEmpty with
    | true =>
      rw [List.map_cons,
        pageLoop_page_end n domainID workflowID runID domainName sid sv eid ev resp
          (List.map FetchResult.ok rest) token hdl (by rw [hstep]) htk]
    | false =>
      cases rest with
      | nil =>
        have h2 : resp.nextPageToken.isEmpty = true := by
          simpa [lastTokenEmpty] using hlast
        rw [htk] at h2
        exact absurd h2 (by simp)
      | cons q qs =>
        have hlast2 : lastTokenEmpty (q :: qs) = true := by
          simpa [lastTokenEmpty, List.getLast?_cons_cons] using hlast
        have hcont := ih resp.nextPageToken (by simp) hlast2 (by
          intro req hreq
          apply hdisp
          rw [List.map_cons,
            pageLoop_page_cont n domainID workflowID runID domainName sid sv eid ev resp
              (List.map FetchResult.ok (q :: qs)) token hdl (by rw [hstep]) htk]
          simp only [dispatchedRequests_cons_fetch, dispatchedRequests_append,
            List.mem_append]
          exact Or.inr hreq)
        rw [List.map_cons,
          pageLoop_page_cont n domainID workflowID runID domainName sid sv eid ev resp
            (List.map FetchResult.ok (q :: qs)) token hdl (by rw [hstep]) htk]
        exact hcont

theorem dispatchLoop_stop_provenance (n : NDCHistoryResenderImpl)
    (domainID workflowID runID : String) (bs : List historyBatch) (e : GoError)
    (h : (dispatchLoop n domainID workflowID runID bs).1 = LoopExit.stop e) :
    (∃ req, n.historyReplicationFn req = some e) ∨
    (e = ErrSkipTask ∧
      (fixCurrentExecution n.currentExecutionCheck domainID workflowID runID).1 = true ∧
      ∃ req m, n.historyReplicationFn req = some (GoError.entityNotExists m)) := by
  induction bs with
  | nil => exact absurd h (by simp [dispatchLoop])
  | cons b rest ih =>
    cases hfn : n.historyReplicationFn (batchRequest domainID workflowID runID b) with
    | none =>
      simp only [dispatchLoop, hfn] at h
      exact ih h
    | some e2 =>
      cases e2 with
      | entityNotExists m =>
        simp only [dispatchLoop, hfn] at h
        injection h with h2
        cases hg : (fixCurrentExecution n.currentExecutionCheck domainID workflowID runID).1 with
        | true =>
          rw [hg] at h2
          simp only [if_true] at h2
          exact Or.inr ⟨h2.symm, rfl, batchRequest domainID workflowID runID b, m, hfn⟩
        | false =>
          rw [hg] at h2
          simp only [Bool.false_eq_true, if_false] at h2
          exact Or.inl ⟨batchRequest domainID workflowID runID b, by rw [hfn, h2]⟩
      | skipTask =>
        simp only [dispatchLoop, hfn] at h
        injection h with h2
        exact Or.inl ⟨batchRequest domainID workflowID runID b, by rw [hfn, h2]⟩
      | other s =>
        simp only [dispatchLoop, hfn] at h
        injection h with h2
        exact Or.inl ⟨batchRequest domainID workflowID runID b, by rw [hfn, h2]⟩

theorem pageLoop_err_provenance (n : NDCHistoryResenderImpl)
    (domainID workflowID runID : String) (sid sv eid ev : Option Int) :
    ∀ (remaining : List FetchResult) (token : List Nat) (e : GoError),
    scriptClosed remaining = true →
    (pageLoop n domainID workflowID runID sid sv eid ev remaining token).1 = some e →
    n.domainLookup = Except.error e ∨ FetchResult.err e ∈ remaining ∨
    (∃ req, n.historyReplicationFn req = some e) ∨
    (e = ErrSkipTask ∧
      (fixCurrentExecution n.currentExecutionCheck domainID workflowID runID).1 = true ∧
      ∃ req m, n.historyReplicationFn req = some (GoError.entityNotExists m)) := by
  intro remaining
  induction remaining with
  | nil => intro token e hcl _; exact absurd hcl (by simp [scriptClosed])
  | cons p rest ih =>
    intro token e hcl hout
    rcases hdl : n.domainLookup with e2 | domainName
    · rw [pageLoop_domain_err n domainID workflowID runID sid sv eid ev e2 hdl] at hout
      injection hout with h2
      refine Or.inl ?_
      rw [h2]
    · cases p with
      | err e2 =>
        rw [pageLoop_fetch_err n domainID workflowID runID domainName sid sv eid ev e2
          rest token hdl] at hout
        injection hout with h2
        refine Or.inr (Or.inl ?_)
        rw [← h2]
        exact List.mem_cons_self _ _
      | ok resp =>
        cases hstep : (dispatchLoop n domainID workflowID runID (paginateItems resp)).1 with
        | stop e2 =>
          rw [pageLoop_page_stop n domainID workflowID runID domainName sid sv eid ev e2
            resp rest token hdl hstep] at hout
          injection hout with h2
          rw [h2] at hstep
          rcases dispatchLoop_stop_provenance n domainID workflowID runID
            (paginateItems resp) e hstep with h3 | h3
          · exact Or.inr (Or.inr (Or.inl h3))
          · exact Or.inr (Or.inr (Or.inr h3))
        | next =>
          cases htk : resp.nextPageToken.isEmpty with
          | true =>
            rw [pageLoop_page_end n domainID workflowID runID domainName sid sv eid ev
              resp rest token hdl hstep htk] at hout
            exact absurd hout (by simp)
          | false =>
            cases rest with
            | nil =>
              simp only [scriptClosed, htk] at hcl
              exact Bool.noConfusion hcl
            | cons q qs =>
              have hcl2 : scriptClosed (q :: qs) = true := by
                simpa [scriptClosed] using hcl
              rw [pageLoop_page_cont n domainID workflowID runID domainName sid sv eid ev
                resp (q :: qs) token hdl hstep htk] at hout
              rcases ih resp.nextPageToken e hcl2 hout with h3 | h3 | h3 | h3
              · rw [hdl] at h3
                exact Or.inl h3
              · exact Or.inr (Or.inl (List.mem_cons_of_mem _ h3))
              · exact Or.inr (Or.inr (Or.inl h3))
              · exact Or.inr (Or.inr (Or.inr h3))

theorem dispatchedRequests_canonicalTrace (domainID workflowID runID domainName : String)
    (sid sv eid ev : Option Int) :
    ∀ (token : List Nat) (rs : List RawResponse),
    dispatchedRequests
      (canonicalTrace domainID workflowID runID domainName sid sv eid ev token rs) =
      (flattenedBatches rs).map (batchRequest domainID workflowID runID) := by
  intro token rs
  induction rs generalizing token with
  | nil => rfl
  | cons resp rest ih =>
    simp [canonicalTrace, flattenedBatches, dispatchedRequests_append,
      dispatchedRequests_map_dispatch, ih, List.flatten]

theorem fetchTokens_canonicalTrace (domainID workflowID runID domainName : String)
    (sid sv eid ev : Option Int) :
    ∀ (token : List Nat) (rs : List RawResponse),
    fetchTokens (canonicalTrace domainID workflowID runID domainName sid sv eid ev token rs) =
      tokensUsed token rs := by
  intro token rs
  induction rs generalizing token with
  | nil => rfl
  | cons resp rest ih =>
    simp [canonicalTrace, tokensUsed, fetchTokens_append, fetchTokens_map_dispatch,
      mkFetchRequest, ih]

theorem tokensUsed_dropLast :
    ∀ (token : List Nat) (rs : List RawResponse), rs ≠ [] →
    tokensUsed token rs = token :: (rs.dropLast.map RawResponse.nextPageToken) := by
  intro token rs
  induction rs generalizing token with
  | nil => intro h; exact absurd rfl h
  | cons resp rest ih =>
    intro _
    cases rest with
    | nil => rfl
    | cons q qs =>
      rw [show tokensUsed token (resp :: q :: qs) =
        token :: tokensUsed resp.nextPageToken (q :: qs) from rfl,
        ih resp.nextPageToken (by simp)]
      simp [List.dropLast]

/-- C2: if during a run the dispatcher rejects some batch with an
entity-not-exists error, the repair gate is invoked for the call's
identity triple — its events close the run's trace right after the
failing dispatch — and the call terminates returning the sentinel
`ErrSkipTask` when the gate skips (a value distinct from nil and from
the not-found error) and the original not-found error value when it
does not. -/
theorem send_dispatch_notFound_gate (n : NDCHistoryResenderImpl)
    (domainID workflowID runID : String) (sid sv eid ev : Option Int)
    (req : ReplicateEventsV2Request) (m : String)
    (hmem : Event.dispatch req (some (GoError.entityNotExists m)) ∈
      (SendSingleWorkflowHistory n domainID workflowID runID sid sv eid ev).2) :
    ((fixCurrentExecution n.currentExecutionCheck domainID workflowID runID).1 = true →
      (SendSingleWorkflowHistory n domainID workflowID runID sid sv eid ev).1 =
        some ErrSkipTask) ∧
    ((fixCurrentExecution n.currentExecutionCheck domainID workflowID runID).1 = false →
      (SendSingleWorkflowHistory n domainID workflowID runID sid sv eid ev).1 =
        some (GoError.entityNotExists m)) ∧
    some ErrSkipTask ≠ (none : Option GoError) ∧
    ErrSkipTask ≠ GoError.entityNotExists m ∧
    ∃ pre, (SendSingleWorkflowHistory n domainID workflowID runID sid sv eid ev).2 =
      pre ++ (Event.dispatch req (some (GoError.entityNotExists m)) ::
        (fixCurrentExecution n.currentExecutionCheck domainID workflowID runID).2) := by
  simp only [SendSingleWorkflowHistory] at hmem ⊢
  obtain ⟨g1, g2, g3⟩ := pageLoop_mem_some n domainID workflowID runID sid sv eid ev req
    (GoError.entityNotExists m) n.pages [] hmem
  obtain ⟨e1, pre, e2⟩ := g2 m rfl
  refine ⟨?_, ?_, by simp, by simp [ErrSkipTask], pre, e2⟩
  · intro hg
    rw [e1, hg]
    simp
  · intro hg
    rw [e1, hg]
    simp

/-- Witness for C2: with one page of one batch, a replication function
answering entity-not-exists and a healthy checker, the dispatch-event
membership and skip hypotheses hold concretely and the call returns the
skip sentinel. -/
theorem send_dispatch_notFound_gate_witness :
    Event.dispatch (batchRequest "d1" "w1" "r1" batchD) (some (GoError.entityNotExists "nf")) ∈
      (SendSingleWorkflowHistory (notFoundResender (some healthyChecker))
        "d1" "w1" "r1" none none none none).2 ∧
    (fixCurrentExecution (notFoundResender (some healthyChecker)).currentExecutionCheck
      "d1" "w1" "r1").1 = true ∧
    (SendSingleWorkflowHistory (notFoundResender (some healthyChecker))
      "d1" "w1" "r1" none none none none).1 = some ErrSkipTask :=
  ⟨by decide, by decide,
    (send_dispatch_notFound_gate (notFoundResender (some healthyChecker)) "d1" "w1" "r1"
      none none none none (batchRequest "d1" "w1" "r1" batchD) "nf" (by decide)).1
      (by decide)⟩

/-- C4: the orchestrator is fail-fast and all-or-stop: a dispatch error
other than entity-not-exists is returned as the call's result and the
failing dispatch is the final event of the run, so no further batch is
fetched or dispatched; a domain-resolution error and a fetch error are
each returned immediately; and when every page is fetched successfully,
the last page ends the pagination and every dispatched request
succeeded, the call returns nil. -/
theorem send_failFast (n : NDCHistoryResenderImpl) (domainID workflowID runID : String)
    (sid sv eid ev : Option Int) :
    (∀ req e,
      Event.dispatch req (some e) ∈
        (SendSingleWorkflowHistory n domainID workflowID runID sid sv eid ev).2 →
      (∀ m, e ≠ GoError.entityNotExists m) →
      (SendSingleWorkflowHistory n domainID workflowID runID sid sv eid ev).1 = some e ∧
      ∃ pre, (SendSingleWorkflowHistory n domainID workflowID runID sid sv eid ev).2 =
        pre ++ [Event.dispatch req (some e)]) ∧
    (∀ e, n.domainLookup = Except.error e →
      SendSingleWorkflowHistory n domainID workflowID runID sid sv eid ev = (some e, [])) ∧
    (∀ domainName e rest token, n.domainLookup = Except.ok domainName →
      pageLoop n domainID workflowID runID sid sv eid ev (FetchResult.err e :: rest) token =
        (some e,
          [Event.fetch (mkFetchRequest domainName workflowID runID sid sv eid ev token)])) ∧
    (∀ (domainName : String) (rs : List RawResponse),
      n.domainLookup = Except.ok domainName → n.pages = rs.map FetchResult.ok →
      rs ≠ [] → lastTokenEmpty rs = true →
      (∀ req ∈ dispatchedRequests
        (SendSingleWorkflowHistory n domainID workflowID runID sid sv eid ev).2,
        n.historyReplicationFn req = none) →
      (SendSingleWorkflowHistory n domainID workflowID runID sid sv eid ev).1 = none) := by
  refine ⟨?_, ?_, ?_, ?_⟩
  · intro req e hmem hne
    simp only [SendSingleWorkflowHistory] at hmem ⊢
    obtain ⟨g1, g2, g3⟩ := pageLoop_mem_some n domainID workflowID runID sid sv eid ev req e
      n.pages [] hmem
    exact g3 hne
  · intro e hdl
    simp only [SendSingleWorkflowHistory]
    exact pageLoop_domain_err n domainID workflowID runID sid sv eid ev e hdl n.pages []
  · intro domainName e rest token hdl
    exact pageLoop_fetch_err n domainID workflowID runID domainName sid sv eid ev e rest
      token hdl
  · intro domainName rs hdl hpages hne hlast hdisp
    simp only [SendSingleWorkflowHistory, hpages] at hdisp ⊢
    exact pageLoop_ok_of_dispatched n domainID workflowID runID domainName sid sv eid ev hdl
      rs [] hne hlast hdisp

/-- Witness for C4: a non-not-found dispatch error on a concrete run is
returned with the failing dispatch as final event, and a fully
successful two-page run returns nil. -/
theorem send_failFast_witness :
    Event.dispatch (batchRequest "d1" "w1" "r1" batchD) (some (GoError.other "boom")) ∈
      (SendSingleWorkflowHistory boomResender "d1" "w1" "r1" none none none none).2 ∧
    (SendSingleWorkflowHistory boomResender "d1" "w1" "r1" none none none none).1 =
      some (GoError.other "boom") ∧
    okResender.pages = [pageOne, pageTwo].map FetchResult.ok ∧
    lastTokenEmpty [pageOne, pageTwo] = true ∧
    (SendSingleWorkflowHistory okResender "d1" "w1" "r1" none none none none).1 = none :=
  ⟨by decide,
    ((send_failFast boomResender "d1" "w1" "r1" none none none none).1
      (batchRequest "d1" "w1" "r1" batchD) (GoError.other "boom") (by decide)
      (fun m h => GoError.noConfusion h)).1,
    by decide, by decide,
    (send_failFast okResender "d1" "w1" "r1" none none none none).2.2.2
      "sourceDomain" [pageOne, pageTwo] rfl (by decide) (by decide) (by decide)
      (fun req _ => rfl)⟩

/-- C5: over a chained remote script whose every dispatch succeeds, the
run's trace is exactly the canonical interleaving — for each page one
fetch followed by one dispatch per raw batch of that page in order,
the next page fetched only after all of them — and the dispatcher
receives exactly the requests of all batches of all pages, in page
order and within-page order. -/
theorem send_dispatch_order (n : NDCHistoryResenderImpl)
    (domainID workflowID runID domainName : String) (sid sv eid ev : Option Int)
    (rs : List RawResponse)
    (hdl : n.domainLookup = Except.ok domainName)
    (hpages : n.pages = rs.map FetchResult.ok)
    (hne : rs ≠ []) (hch : chainb rs = true)
    (hfn : ∀ req, n.historyReplicationFn req = none) :
    SendSingleWorkflowHistory n domainID workflowID runID sid sv eid ev =
      (none, canonicalTrace domainID workflowID runID domainName sid sv eid ev [] rs) ∧
    dispatchedRequests
      (SendSingleWorkflowHistory n domainID workflowID runID sid sv eid ev).2 =
      (flattenedBatches rs).map (batchRequest domainID workflowID runID) := by
  have h := pageLoop_allOk n domainID workflowID runID domainName sid sv eid ev hdl hfn
    rs [] hne hch
  constructor
  · simp only [SendSingleWorkflowHistory, hpages]
    exact h
  · simp only [SendSingleWorkflowHistory, hpages, h]
    exact dispatchedRequests_canonicalTrace domainID workflowID runID domainName
      sid sv eid ev [] rs

/-- Witness for C5 at the sample two-page script (three batches then
one batch): the four dispatched requests are exactly the batches in
order. -/
theorem send_dispatch_order_witness :
    okResender.domainLookup = Except.ok "sourceDomain" ∧
    chainb [pageOne, pageTwo] = true ∧
    dispatchedRequests
      (SendSingleWorkflowHistory okResender "d1" "w1" "r1" none none none none).2 =
      (flattenedBatches [pageOne, pageTwo]).map (batchRequest "d1" "w1" "r1") :=
  ⟨rfl, by decide,
    (send_dispatch_order okResender "d1" "w1" "r1" "sourceDomain" none none none none
      [pageOne, pageTwo] rfl rfl (by decide) (by decide) (fun req => rfl)).2⟩

/-- C6: the pagination fan-out produces exactly one item per raw event
batch of the response, in order, each carrying the page's version
history; and over a chained successful script the fetch tokens of the
run are the start-of-sequence token followed by each page's next-page
token round-tripped verbatim — one further fetch per non-empty token,
none after the final empty token, so the number of fetches equals the
number of pages. -/
theorem pagination_fanout_tokens (n : NDCHistoryResenderImpl)
    (domainID workflowID runID domainName : String) (sid sv eid ev : Option Int)
    (rs : List RawResponse) (resp : RawResponse)
    (hdl : n.domainLookup = Except.ok domainName)
    (hpages : n.pages = rs.map FetchResult.ok)
    (hne : rs ≠ []) (hch : chainb rs = true)
    (hfn : ∀ req, n.historyReplicationFn req = none) :
    (paginateItems resp).length = resp.historyBatches.length ∧
    (∀ i : Nat, (paginateItems resp)[i]? =
      (resp.historyBatches[i]?).map fun h =>
        { versionHistory := resp.versionHistory, rawEventBatch := h }) ∧
    fetchTokens (SendSingleWorkflowHistory n domainID workflowID runID sid sv eid ev).2 =
      [] :: (rs.dropLast.map RawResponse.nextPageToken) ∧
    (fetchTokens
      (SendSingleWorkflowHistory n domainID workflowID runID sid sv eid ev).2).length =
      rs.length := by
  have h := pageLoop_allOk n domainID workflowID runID domainName sid sv eid ev hdl hfn
    rs [] hne hch
  have htr : fetchTokens
      (SendSingleWorkflowHistory n domainID workflowID runID sid sv eid ev).2 =
      [] :: (rs.dropLast.map RawResponse.nextPageToken) := by
    simp only [SendSingleWorkflowHistory, hpages, h]
    rw [fetchTokens_canonicalTrace domainID workflowID runID domainName sid sv eid ev [] rs]
    exact tokensUsed_dropLast [] rs hne
  refine ⟨by simp [paginateItems], ?_, htr, ?_⟩
  · intro i
    simp [paginateItems]
  · rw [htr]
    cases rs with
    | nil => exact absurd rfl hne
    | cons q qs => simp [List.length_dropLast]

/-- Witness for C6 at the sample two-page script: the run fetches twice,
with the empty start token then pageOne's token. -/
theorem pagination_fanout_tokens_witness :
    okResender.pages = [pageOne, pageTwo].map FetchResult.ok ∧
    fetchTokens
      (SendSingleWorkflowHistory okResender "d1" "w1" "r1" none none none none).2 =
      [[], [7]] :=
  ⟨by decide,
    by rw [(pagination_fanout_tokens okResender "d1" "w1" "r1" "sourceDomain"
      none none none none [pageOne, pageTwo] pageOne rfl rfl (by decide) (by decide)
      (fun req => rfl)).2.2.1]; decide⟩

/-- C9: a remote page with zero raw event batches fans out to an empty
item list without error; the run dispatches nothing for that page and
either returns nil at once (empty next-page token) or continues the
pagination with that page's token (non-empty token), both at an
arbitrary point of the run and from the entry point. -/
theorem empty_page_no_dispatch (n : NDCHistoryResenderImpl)
    (domainID workflowID runID domainName : String) (sid sv eid ev : Option Int)
    (resp : RawResponse) (rest : List FetchResult) (token : List Nat)
    (hdl : n.domainLookup = Except.ok domainName)
    (hempty : resp.historyBatches = []) :
    paginateItems resp = [] ∧
    (resp.nextPageToken.isEmpty = true →
      pageLoop n domainID workflowID runID sid sv eid ev (FetchResult.ok resp :: rest)
        token =
        (none, [Event.fetch (mkFetchRequest domainName workflowID runID sid sv eid ev
          token)])) ∧
    (resp.nextPageToken.isEmpty = false →
      pageLoop n domainID workflowID runID sid sv eid ev (FetchResult.ok resp :: rest)
        token =
        ((pageLoop n domainID workflowID runID sid sv eid ev rest resp.nextPageToken).1,
          Event.fetch (mkFetchRequest domainName workflowID runID sid sv eid ev token) ::
            (pageLoop n domainID workflowID runID sid sv eid ev rest
              resp.nextPageToken).2)) ∧
    (n.pages = FetchResult.ok resp :: rest → resp.nextPageToken.isEmpty = true →
      SendSingleWorkflowHistory n domainID workflowID runID sid sv eid ev =
        (none,
          [Event.fetch (mkFetchRequest domainName workflowID runID sid sv eid ev [])])) := by
  have hpi : paginateItems resp = [] := by simp [paginateItems, hempty]
  have hstep : dispatchLoop n domainID workflowID runID (paginateItems resp) =
      (LoopExit.next, []) := by
    rw [hpi]
    rfl
  have hend : ∀ tk : List Nat, resp.nextPageToken.isEmpty = true →
      pageLoop n domainID workflowID runID sid sv eid ev (FetchResult.ok resp :: rest) tk =
      (none,
        [Event.fetch (mkFetchRequest domainName workflowID runID sid sv eid ev tk)]) := by
    intro tk htk
    rw [pageLoop_page_end n domainID workflowID runID domainName sid sv eid ev resp rest tk
      hdl (by rw [hstep]) htk, hstep]
  refine ⟨hpi, hend token, ?_, ?_⟩
  · intro htk
    rw [pageLoop_page_cont n domainID workflowID runID domainName sid sv eid ev resp rest
      token hdl (by rw [hstep]) htk, hstep]
    simp
  · intro hpages htk
    simp only [SendSingleWorkflowHistory, hpages]
    exact hend [] htk

/-- Witness for C9: a single empty page with an empty token makes the
whole call return nil after one fetch and no dispatch. -/
theorem empty_page_no_dispatch_witness :
    emptyPage.historyBatches = [] ∧ emptyPage.nextPageToken.isEmpty = true ∧
    SendSingleWorkflowHistory
      { domainLookup := Except.ok "sourceDomain"
        pages := [FetchResult.ok emptyPage]
        historyReplicationFn := fun _ => none
        currentExecutionCheck := none }
      "d1" "w1" "r1" none none none none =
      (none, [Event.fetch (mkFetchRequest "sourceDomain" "w1" "r1" none none none none [])]) :=
  ⟨rfl, rfl,
    (empty_page_no_dispatch
      { domainLookup := Except.ok "sourceDomain"
        pages := [FetchResult.ok emptyPage]
        historyReplicationFn := fun _ => none
        currentExecutionCheck := none }
      "d1" "w1" "r1" "sourceDomain" none none none none emptyPage [] []
      rfl rfl).2.2.2 rfl rfl⟩

/-- C8 as amended: every error the call returns is exactly an error
value produced by a collaborator — the domain lookup, a remote fetch,
or the replication apply function — propagated unmodified (execution
identity appears only in logging), except for the single repair-gate
branch that converts a dispatch entity-not-exists into the `ErrSkipTask`
sentinel; no other error is swallowed or altered. -/
theorem send_error_provenance (n : NDCHistoryResenderImpl)
    (domainID workflowID runID : String) (sid sv eid ev : Option Int) (e : GoError)
    (hcl : scriptClosed n.pages = true)
    (hout : (SendSingleWorkflowHistory n domainID workflowID runID sid sv eid ev).1 =
      some e) :
    n.domainLookup = Except.error e ∨ FetchResult.err e ∈ n.pages ∨
    (∃ req, n.historyReplicationFn req = some e) ∨
    (e = ErrSkipTask ∧
      (fixCurrentExecution n.currentExecutionCheck domainID workflowID runID).1 = true ∧
      ∃ req m, n.historyReplicationFn req = some (GoError.entityNotExists m)) := by
  simp only [SendSingleWorkflowHistory] at hout
  exact pageLoop_err_provenance n domainID workflowID runID sid sv eid ev n.pages [] e
    hcl hout

/-- Witness for the amended C8: the concrete failing run returns an
error that is traceable to the replication collaborator. -/
theorem send_error_provenance_witness :
    scriptClosed boomResender.pages = true ∧
    (SendSingleWorkflowHistory boomResender "d1" "w1" "r1" none none none none).1 =
      some (GoError.other "boom") ∧
    (boomResender.domainLookup = Except.error (GoError.other "boom") ∨
      FetchResult.err (GoError.other "boom") ∈ boomResender.pages ∨
      (∃ req, boomResender.historyReplicationFn req = some (GoError.other "boom")) ∨
      (GoError.other "boom" = ErrSkipTask ∧
        (fixCurrentExecution boomResender.currentExecutionCheck "d1" "w1" "r1").1 = true ∧
        ∃ req m, boomResender.historyReplicationFn req =
          some (GoError.entityNotExists m))) :=
  ⟨by decide, by decide,
    send_error_provenance boomResender "d1" "w1" "r1" none none none none
      (GoError.other "boom") (by decide) (by decide)⟩

end Xdc
